import Mathlib

/-!
Verification development for the `redis_ts` crate: a shallow embedding of
its argument encoders (`ToRedisArgs` implementations in `src/types.rs` and
the command builders in `src/commands.rs`) and its reply decoders
(`FromRedisValue` implementations in `src/types.rs`).

Modelling conventions:
* a wire argument (one `out.write_arg(..)` call) is a `String`; an encoder
  is a function producing the `List String` of arguments it appends, in
  order;
* Rust's decimal rendering of unsigned / signed machine integers is
  `natDecimal` / `intDecimal` (fuel-based long division, most significant
  digit first);
* `f64` arguments appear in the claims only as opaque tokens, so a stored
  `f64` is represented by the token its formatting produces (a `String`);
* the generic redis reply tree is `Value`, mirroring `redis::Value`;
* a decoder returns a `DecodeOutcome`: `ok`, `fail` (a `RedisResult` error,
  i.e. `Err(..)` / the `?` operator) or `panic` (a Rust panic, from
  `unwrap()` on an `Err` or from out-of-bounds indexing `v[i]`).
-/

namespace RedisTs

/-- The character for a decimal digit `d < 10`. -/
def decDigitChar (d : Nat) : Char := Char.ofNat (48 + d)

/-- Fuel-based decimal rendering, most significant digit first.
The fuel is always at least the number of digits. -/
def natDecimalCore (fuel : Nat) (n : Nat) (acc : List Char) : List Char :=
  match fuel with
  | 0 => acc
  | fuel + 1 =>
    if n < 10 then decDigitChar n :: acc
    else natDecimalCore fuel (n / 10) (decDigitChar (n % 10) :: acc)

/-- Decimal rendering of an unsigned integer, as Rust's `{}` formatting
produces for the unsigned integer types. -/
def natDecimal (n : Nat) : String := ⟨natDecimalCore (n + 1) n []⟩

/-- Decimal rendering of a signed integer, as Rust's `{}` formatting
produces for the signed integer types. -/
def intDecimal (i : Int) : String :=
  if i < 0 then "-" ++ natDecimal i.natAbs else natDecimal i.toNat

theorem decDigitChar_isDigit {d : Nat} (h : d < 10) : (decDigitChar d).isDigit := by
  have : ∀ e, e < 10 → (decDigitChar e).isDigit := by decide
  exact this d h

theorem natDecimalCore_digits (fuel : Nat) :
    ∀ (n : Nat) (acc : List Char), (∀ c ∈ acc, c.isDigit) →
      ∀ c ∈ natDecimalCore fuel n acc, c.isDigit := by
  induction fuel with
  | zero => intro n acc hacc c hc; exact hacc c hc
  | succ fuel ih =>
    intro n acc hacc c hc
    unfold natDecimalCore at hc
    by_cases hn : n < 10
    · simp only [hn, if_true] at hc
      rcases List.mem_cons.mp hc with h | h
      · subst h; exact decDigitChar_isDigit hn
      · exact hacc c h
    · simp only [hn, if_false] at hc
      refine ih (n / 10) _ ?_ c hc
      intro c' hc'
      rcases List.mem_cons.mp hc' with h | h
      · subst h; exact decDigitChar_isDigit (Nat.mod_lt _ (by decide))
      · exact hacc c' h

theorem natDecimal_digits (n : Nat) : ∀ c ∈ (natDecimal n).data, c.isDigit :=
  natDecimalCore_digits (n + 1) n [] (by intro c hc; cases hc)

theorem intDecimal_chars (i : Int) :
    ∀ c ∈ (intDecimal i).data, c.isDigit ∨ c = '-' := by
  intro c hc
  unfold intDecimal at hc
  by_cases hi : i < 0
  · simp only [hi, if_true] at hc
    have : ("-" ++ natDecimal i.natAbs).data = '-' :: (natDecimal i.natAbs).data := rfl
    rw [this] at hc
    rcases List.mem_cons.mp hc with h | h
    · right; exact h
    · left; exact natDecimal_digits _ c h
  · simp only [hi, if_false] at hc
    left; exact natDecimal_digits _ c hc

/-- A decimal rendering is never equal to a string containing a character
that is neither a digit nor a minus sign. -/
theorem natDecimal_ne (n : Nat) (s : String) (c : Char)
    (hc : c ∈ s.data) (hnd : ¬ c.isDigit) : natDecimal n ≠ s := by
  intro he
  exact hnd (natDecimal_digits n c (he ▸ hc))

theorem intDecimal_ne (i : Int) (s : String) (c : Char)
    (hc : c ∈ s.data) (hnd : ¬ c.isDigit) (hm : c ≠ '-') : intDecimal i ≠ s := by
  intro he
  rcases intDecimal_chars i c (he ▸ hc) with h | h
  · exact hnd h
  · exact hm h

/-! ### `Integer` (src/types.rs lines 105-137)

The width enum over the primitive integer kinds.  Every variant writes the
decimal rendering of its value as one argument. -/

inductive Integer where
  | Usize (v : Nat)
  | U8 (v : Nat)
  | U16 (v : Nat)
  | U32 (v : Nat)
  | U64 (v : Nat)
  | Isize (v : Int)
  | I8 (v : Int)
  | I16 (v : Int)
  | I32 (v : Int)
  | I64 (v : Int)
  deriving DecidableEq

def Integer.write_redis_args : Integer → List String
  | .Usize v => [natDecimal v]
  | .U8 v => [natDecimal v]
  | .U16 v => [natDecimal v]
  | .U32 v => [natDecimal v]
  | .U64 v => [natDecimal v]
  | .Isize v => [intDecimal v]
  | .I8 v => [intDecimal v]
  | .I16 v => [intDecimal v]
  | .I32 v => [intDecimal v]
  | .I64 v => [intDecimal v]

/-! ### `TsAggregationType` (src/types.rs lines 10-52) -/

inductive TsAggregationType where
  | Avg (v : Nat)
  | Sum (v : Nat)
  | Min (v : Nat)
  | Max (v : Nat)
  | Range (v : Nat)
  | Count (v : Nat)
  | First (v : Nat)
  | Last (v : Nat)
  | StdP (v : Nat)
  | StdS (v : Nat)
  | VarP (v : Nat)
  | VarS (v : Nat)
  | Twa (v : Nat)
  deriving DecidableEq

def TsAggregationType.write_redis_args (a : TsAggregationType) : List String :=
  let tv : String × Nat :=
    match a with
    | .Avg v => ("avg", v)
    | .Sum v => ("sum", v)
    | .Min v => ("min", v)
    | .Max v => ("max", v)
    | .Range v => ("range", v)
    | .Count v => ("count", v)
    | .First v => ("first", v)
    | .Last v => ("last", v)
    | .StdP v => ("std.p", v)
    | .StdS v => ("std.s", v)
    | .VarP v => ("var.p", v)
    | .VarS v => ("var.s", v)
    | .Twa v => ("twa", v)
  ["AGGREGATION", tv.1, natDecimal tv.2]

/-! ### `TsAlign` (src/types.rs lines 59-78) -/

inductive TsAlign where
  | Start
  | End
  | Ts (v : Nat)
  deriving DecidableEq

def TsAlign.write_redis_args : TsAlign → List String
  | .Start => ["ALIGN", "-"]
  | .End => ["ALIGN", "+"]
  | .Ts v => ["ALIGN", natDecimal v]

/-! ### `TsBucketTimestamp` (src/types.rs lines 84-103) -/

inductive TsBucketTimestamp where
  | Low
  | High
  | Mid
  deriving DecidableEq

def TsBucketTimestamp.write_redis_args : TsBucketTimestamp → List String
  | .Low => ["BUCKETTIMESTAMP", "-"]
  | .High => ["BUCKETTIMESTAMP", "+"]
  | .Mid => ["BUCKETTIMESTAMP", "~"]

/-! ### `TsRangeQuery` (src/types.rs lines 213-349)

The `filter_by_value` field stores a Rust `(f64, f64)` pair; each
component is represented here by the token its formatting produces. -/

structure TsRangeQuery where
  start : Option Integer := none
  stop : Option Integer := none
  latest : Bool := false
  filter_by_ts : List Integer := []
  filter_by_value : Option (String × String) := none
  count : Option Nat := none
  align : Option TsAlign := none
  aggregation_type : Option TsAggregationType := none
  bucket_timestamp : Option TsBucketTimestamp := none
  empty : Bool := false
  deriving DecidableEq

/-- Builder `TsRangeQuery::from` (the fields `from` / `to` are named
`start` / `stop` here because both are reserved words in Lean). -/
def TsRangeQuery.fromTs (q : TsRangeQuery) (v : Integer) : TsRangeQuery :=
  { q with start := some v }

def TsRangeQuery.toTs (q : TsRangeQuery) (v : Integer) : TsRangeQuery :=
  { q with stop := some v }

def TsRangeQuery.setLatest (q : TsRangeQuery) (latest : Bool) : TsRangeQuery :=
  { q with latest := latest }

def TsRangeQuery.filterByTs (q : TsRangeQuery) (ts : List Integer) : TsRangeQuery :=
  { q with filter_by_ts := ts }

def TsRangeQuery.filterByValue (q : TsRangeQuery) (min max : String) : TsRangeQuery :=
  { q with filter_by_value := some (min, max) }

def TsRangeQuery.setCount (q : TsRangeQuery) (count : Nat) : TsRangeQuery :=
  { q with count := some count }

def TsRangeQuery.setAlign (q : TsRangeQuery) (align : TsAlign) : TsRangeQuery :=
  { q with align := some align }

def TsRangeQuery.aggregationType (q : TsRangeQuery) (a : TsAggregationType) : TsRangeQuery :=
  { q with aggregation_type := some a }

def TsRangeQuery.bucketTimestamp (q : TsRangeQuery) (b : TsBucketTimestamp) : TsRangeQuery :=
  { q with bucket_timestamp := some b }

def TsRangeQuery.setEmpty (q : TsRangeQuery) (empty : Bool) : TsRangeQuery :=
  { q with empty := empty }

/-- `TsRangeQuery::write_redis_args` (src/types.rs lines 294-349): the
arguments are appended strictly in the source's statement order. -/
def TsRangeQuery.write_redis_args (q : TsRangeQuery) : List String :=
  (match q.start with
   | some f => f.write_redis_args
   | none => ["-"])
  ++ (match q.stop with
      | some t => t.write_redis_args
      | none => ["+"])
  ++ (if q.latest then ["LATEST"] else [])
  ++ (if q.filter_by_ts.isEmpty then []
      else "FILTER_BY_TS" :: (q.filter_by_ts.map Integer.write_redis_args).flatten)
  ++ (match q.filter_by_value with
      | some (min, max) => ["FILTER_BY_VALUE", min, max]
      | none => [])
  ++ (match q.count with
      | some count => ["COUNT", natDecimal count]
      | none => [])
  ++ (match q.aggregation_type with
      | some agg =>
        (match q.align with
         | some align => align.write_redis_args
         | none => [])
        ++ agg.write_redis_args
        ++ (match q.bucket_timestamp with
            | some bkt_ts => bkt_ts.write_redis_args
            | none => [])
        ++ (if q.empty then ["EMPTY"] else [])
      | none => [])

/-! ### `TsDuplicatePolicy` (src/types.rs lines 356-397) -/

inductive TsDuplicatePolicy where
  | Block
  | First
  | Last
  | Min
  | Max
  | Other (s : String)
  deriving DecidableEq

def TsDuplicatePolicy.write_redis_args (p : TsDuplicatePolicy) : List String :=
  let policy : String :=
    match p with
    | .Block => "BLOCK"
    | .First => "FIRST"
    | .Last => "LAST"
    | .Min => "MIN"
    | .Max => "MAX"
    | .Other v => v
  ["DUPLICATE_POLICY", policy]

/-! ### `TsOptions` (src/types.rs lines 402-509)

`labels` stores the already-encoded flat token list (the Rust field holds
`Vec<Vec<u8>>` produced by `ToRedisArgs::to_redis_args` on the label
pairs). -/

structure TsOptions where
  retention_time : Option Nat := none
  uncompressed : Bool := false
  labels : Option (List String) := none
  duplicate_policy : Option TsDuplicatePolicy := none
  chunk_size : Option Nat := none
  deriving DecidableEq

def TsOptions.retentionTime (o : TsOptions) (time : Nat) : TsOptions :=
  { o with retention_time := some time }

def TsOptions.setUncompressed (o : TsOptions) (value : Bool) : TsOptions :=
  { o with uncompressed := value }

/-- `TsOptions::labels`: replaces the whole label list; an empty input
clears it.  A `Vec<(&str, &str)>` encodes to the flattened name/value
token list. -/
def TsOptions.setLabels (o : TsOptions) (labels : List (String × String)) : TsOptions :=
  if labels ≠ [] then
    { o with labels := some (labels.map (fun p => [p.1, p.2])).flatten }
  else
    { o with labels := none }

/-- `TsOptions::label`: appends one name/value pair to the stored token
list. -/
def TsOptions.label (o : TsOptions) (name value : String) : TsOptions :=
  { o with labels := some ((o.labels.getD []) ++ [name, value]) }

def TsOptions.duplicatePolicy (o : TsOptions) (policy : TsDuplicatePolicy) : TsOptions :=
  { o with duplicate_policy := some policy }

def TsOptions.chunkSize (o : TsOptions) (size : Nat) : TsOptions :=
  { o with chunk_size := some size }

/-- `TsOptions::write_redis_args` (src/types.rs lines 479-509). -/
def TsOptions.write_redis_args (o : TsOptions) : List String :=
  (match o.retention_time with
   | some rt => ["RETENTION", natDecimal rt]
   | none => [])
  ++ (if o.uncompressed then ["UNCOMPRESSED"] else [])
  ++ (match o.duplicate_policy with
      | some policy => policy.write_redis_args
      | none => [])
  ++ (match o.chunk_size with
      | some alloc => ["CHUNK_SIZE", natDecimal alloc]
      | none => [])
  ++ (match o.labels with
      | some l => "LABELS" :: l
      | none => [])

/-! ### `TsFilter` / `TsFilterOptions` (src/types.rs lines 513-654, 949-989)

Label names and values reach the builder through `Display` formatting, so
they are plain strings here. -/

inductive TsCompare where
  | Eq
  | NotEq
  deriving DecidableEq

structure TsFilter where
  name : String
  value : String
  compare : TsCompare
  deriving DecidableEq

/-- `TsFilter::write_redis_args` (src/types.rs lines 976-989): one token
`name<cmp>value`. -/
def TsFilter.write_redis_args (f : TsFilter) : List String :=
  let comp : String :=
    match f.compare with
    | .Eq => "="
    | .NotEq => "!="
  [f.name ++ comp ++ f.value]

structure TsFilterOptions where
  with_labels : Bool := false
  filters : List TsFilter := []
  deriving DecidableEq

def TsFilterOptions.withLabels (o : TsFilterOptions) (value : Bool) : TsFilterOptions :=
  { o with with_labels := value }

def TsFilterOptions.equals (o : TsFilterOptions) (name value : String) : TsFilterOptions :=
  { o with filters := o.filters ++ [⟨name, value, TsCompare.Eq⟩] }

def TsFilterOptions.notEquals (o : TsFilterOptions) (name value : String) : TsFilterOptions :=
  { o with filters := o.filters ++ [⟨name, value, TsCompare.NotEq⟩] }

/-- `TsFilterOptions::in_set`: the value list is rendered as a
parenthesized comma-joined list. -/
def TsFilterOptions.inSet (o : TsFilterOptions) (name : String) (values : List String) : TsFilterOptions :=
  { o with filters := o.filters ++ [⟨name, "(" ++ String.intercalate "," values ++ ")", TsCompare.Eq⟩] }

def TsFilterOptions.notInSet (o : TsFilterOptions) (name : String) (values : List String) : TsFilterOptions :=
  { o with filters := o.filters ++ [⟨name, "(" ++ String.intercalate "," values ++ ")", TsCompare.NotEq⟩] }

def TsFilterOptions.hasLabel (o : TsFilterOptions) (name : String) : TsFilterOptions :=
  { o with filters := o.filters ++ [⟨name, "", TsCompare.NotEq⟩] }

def TsFilterOptions.notHasLabel (o : TsFilterOptions) (name : String) : TsFilterOptions :=
  { o with filters := o.filters ++ [⟨name, "", TsCompare.Eq⟩] }

/-- `TsFilterOptions::write_redis_args` (src/types.rs lines 640-654). -/
def TsFilterOptions.write_redis_args (o : TsFilterOptions) : List String :=
  (if o.with_labels then ["WITHLABELS"] else [])
  ++ ["FILTER"]
  ++ (o.filters.map TsFilter.write_redis_args).flatten

/-! ### Command argument sequences (src/commands.rs)

`cmd(name).arg(x).arg(y)...` assembles the command name followed by each
argument's tokens; a key of a string type contributes itself as one
token. -/

/-- `TsCommands::ts_create` (src/commands.rs lines 23-29). -/
def ts_create_args (key : String) (options : TsOptions) : List String :=
  "TS.CREATE" :: key :: options.write_redis_args

/-- `TsCommands::ts_alter` (src/commands.rs lines 32-41): the options are
encoded after `uncompressed(false)` resets the flag. -/
def ts_alter_args (key : String) (options : TsOptions) : List String :=
  "TS.ALTER" :: key :: (options.setUncompressed false).write_redis_args

/-! ### The generic reply tree and decode outcomes

`Value` mirrors `redis::Value`.  A decoder returns a `DecodeOutcome`:
`ok`, `fail` (an `Err(..)` carried by `RedisResult`, propagated by `?`),
or `panic` (a Rust panic: `unwrap()` of an `Err`, or indexing a vector
out of bounds). -/

inductive Value where
  | Nil
  | Int (i : Int)
  | Data (s : String)
  | Bulk (vs : List Value)
  | Status (s : String)
  | Okay

def Value.isBulk : Value → Bool
  | .Bulk _ => true
  | _ => false

inductive DecodeOutcome (α : Type) where
  | ok (a : α)
  | fail (msg : String)
  | panic (msg : String)
  deriving DecidableEq

def DecodeOutcome.bind {α β : Type} : DecodeOutcome α → (α → DecodeOutcome β) → DecodeOutcome β
  | .ok a, f => f a
  | .fail m, _ => .fail m
  | .panic m, _ => .panic m

def DecodeOutcome.map {α β : Type} (f : α → β) : DecodeOutcome α → DecodeOutcome β
  | .ok a => .ok (f a)
  | .fail m => .fail m
  | .panic m => .panic m

/-- Rust `Result::unwrap()`: turns an `Err` into a panic. -/
def DecodeOutcome.unwrapped {α : Type} : DecodeOutcome α → DecodeOutcome α
  | .ok a => .ok a
  | .fail m => .panic m
  | .panic m => .panic m

def DecodeOutcome.isOk {α : Type} : DecodeOutcome α → Bool
  | .ok _ => true
  | _ => false

/-- Rust vector indexing `vs[i]`: panics when out of bounds. -/
def vecIndex (vs : List Value) (i : Nat) : DecodeOutcome Value :=
  match vs.get? i with
  | some v => .ok v
  | none => .panic "index out of bounds"

/-! ### Scalar conversions of the `redis` crate

`FromRedisValue` for the unsigned integer types: an `Int` reply is cast
with `as` (truncating two's-complement), a `Data`/`Status` reply is
`str::parse`d. -/

def from_redis_value_u64 : Value → DecodeOutcome Nat
  | .Int i => .ok ((i % (2 : Int) ^ 64).toNat)
  | .Data s =>
    (match s.toNat? with
     | some n => .ok n
     | none => .fail "could not convert to u64")
  | .Status s =>
    (match s.toNat? with
     | some n => .ok n
     | none => .fail "could not convert to u64")
  | _ => .fail "response type not convertible to u64"

def from_redis_value_u16 : Value → DecodeOutcome Nat
  | .Int i => .ok ((i % (2 : Int) ^ 16).toNat)
  | .Data s =>
    (match s.toNat? with
     | some n => if n < 2 ^ 16 then .ok n else .fail "could not convert to u16"
     | none => .fail "could not convert to u16")
  | .Status s =>
    (match s.toNat? with
     | some n => if n < 2 ^ 16 then .ok n else .fail "could not convert to u16"
     | none => .fail "could not convert to u16")
  | _ => .fail "response type not convertible to u16"

/-- `FromRedisValue` for `String`. -/
def from_redis_value_string : Value → DecodeOutcome String
  | .Data s => .ok s
  | .Status s => .ok s
  | .Okay => .ok "OK"
  | _ => .fail "response type not string compatible"

/-- `FromRedisValue` for `Option<T>`: `Nil` is `None`, anything else is
decoded by the inner type. -/
def decodeOption {α : Type} (dec : Value → DecodeOutcome α) : Value → DecodeOutcome (Option α)
  | .Nil => .ok none
  | v => (dec v).map some

/-- `FromRedisValue` for a pair `(T1, T2)`: a 2-element `Bulk`, decoded
positionally. -/
def decodePair {α β : Type} (decA : Value → DecodeOutcome α) (decB : Value → DecodeOutcome β) :
    Value → DecodeOutcome (α × β)
  | .Bulk [a, b] => (decA a).bind fun x => (decB b).map fun y => (x, y)
  | _ => .fail "response type not pair compatible"

/-- `FromRedisValue::from_redis_values`: element-wise decode of a slice,
short-circuiting on the first failure. -/
def from_redis_values {α : Type} (dec : Value → DecodeOutcome α) : List Value → DecodeOutcome (List α)
  | [] => .ok []
  | v :: rest => (dec v).bind fun a => (from_redis_values dec rest).map fun tail => a :: tail

/-! ### `TsDuplicatePolicy::from_redis_value` (src/types.rs lines 384-397)

The reply string is matched verbatim against the lowercase names; any
other string becomes `Other`. -/

def TsDuplicatePolicy.from_redis_value (v : Value) : DecodeOutcome TsDuplicatePolicy :=
  (from_redis_value_string v).bind fun string =>
    .ok (if string = "block" then .Block
         else if string = "first" then .First
         else if string = "last" then .Last
         else if string = "min" then .Min
         else if string = "max" then .Max
         else .Other string)

/-! ### `TsInfo` (src/types.rs lines 657-763) -/

structure TsInfo where
  total_samples : Nat := 0
  memory_usage : Nat := 0
  first_timestamp : Nat := 0
  last_timestamp : Nat := 0
  retention_time : Nat := 0
  chunk_count : Nat := 0
  max_samples_per_chunk : Nat := 0
  chunk_size : Nat := 0
  duplicate_policy : Option TsDuplicatePolicy := none
  labels : List (String × String) := []
  source_key : Option String := none
  rules : List (String × Nat × String) := []
  deriving DecidableEq

/-- The key/value pair loop of `TsInfo::from_redis_value`: walks
`values.chunks(2)`, converting each key with `?` and storing the raw
value.  A trailing chunk of one element converts its key first (argument
order), then panics on `pair[1]`. -/
def buildPairs : List Value → DecodeOutcome (List (String × Value))
  | [] => .ok []
  | [k] => (from_redis_value_string k).bind fun _ => .panic "index out of bounds"
  | k :: v :: rest =>
    (from_redis_value_string k).bind fun ks =>
      (buildPairs rest).map fun tail => (ks, v) :: tail

/-- `HashMap::get` over the inserted pairs: the last insert for a key
wins. -/
def mapGet (m : List (String × Value)) (key : String) : Option Value :=
  (m.reverse.lookup key)

/-- A numeric `TsInfo` field: absent keys keep the zero default, present
keys convert with `?`. -/
def getU64Field (m : List (String × Value)) (key : String) : DecodeOutcome Nat :=
  match mapGet m key with
  | some v => from_redis_value_u64 v
  | none => .ok 0

def getU16Field (m : List (String × Value)) (key : String) : DecodeOutcome Nat :=
  match mapGet m key with
  | some v => from_redis_value_u16 v
  | none => .ok 0

/-- The `rules` sub-decode: `flat_map` over the elements; a non-`Bulk`
element is skipped (`None`), a `Bulk` element is destructured by indexing
`vs[0] vs[1] vs[2]` and `unwrap()`ing each conversion. -/
def flatMapRules : List Value → DecodeOutcome (List (String × Nat × String))
  | [] => .ok []
  | v :: rest =>
    match v with
    | .Bulk vs =>
      (vecIndex vs 0).bind fun v0 =>
      (from_redis_value_string v0).unwrapped.bind fun a =>
      (vecIndex vs 1).bind fun v1 =>
      (from_redis_value_u64 v1).unwrapped.bind fun b =>
      (vecIndex vs 2).bind fun v2 =>
      (from_redis_value_string v2).unwrapped.bind fun c =>
      (flatMapRules rest).map fun tail => (a, b, c) :: tail
    | _ => flatMapRules rest

/-- The `labels` sub-decode: like `flatMapRules` with 2-element pairs. -/
def flatMapLabels : List Value → DecodeOutcome (List (String × String))
  | [] => .ok []
  | v :: rest =>
    match v with
    | .Bulk vs =>
      (vecIndex vs 0).bind fun v0 =>
      (from_redis_value_string v0).unwrapped.bind fun a =>
      (vecIndex vs 1).bind fun v1 =>
      (from_redis_value_string v1).unwrapped.bind fun b =>
      (flatMapLabels rest).map fun tail => (a, b) :: tail
    | _ => flatMapLabels rest

/-- `TsInfo::from_redis_value` (src/types.rs lines 673-763), field reads
in source order. -/
def TsInfo.from_redis_value (v : Value) : DecodeOutcome TsInfo :=
  match v with
  | .Bulk values =>
    (buildPairs values).bind fun map =>
    (getU64Field map "totalSamples").bind fun total_samples =>
    (getU64Field map "memoryUsage").bind fun memory_usage =>
    (getU64Field map "firstTimestamp").bind fun first_timestamp =>
    (getU64Field map "lastTimestamp").bind fun last_timestamp =>
    (getU64Field map "retentionTime").bind fun retention_time =>
    (getU64Field map "chunkCount").bind fun chunk_count =>
    (getU16Field map "maxSamplesPerChunk").bind fun max_samples_per_chunk =>
    (getU64Field map "chunkSize").bind fun chunk_size =>
    (match mapGet map "sourceKey" with
     | some v => decodeOption from_redis_value_string v
     | none => .ok none).bind fun source_key =>
    (match mapGet map "duplicatePolicy" with
     | some v => decodeOption TsDuplicatePolicy.from_redis_value v
     | none => .ok none).bind fun duplicate_policy =>
    (match mapGet map "rules" with
     | some (.Bulk values) => flatMapRules values
     | _ => .ok []).bind fun rules =>
    (match mapGet map "labels" with
     | some (.Bulk values) => flatMapLabels values
     | _ => .ok []).map fun labels =>
      { total_samples := total_samples
        memory_usage := memory_usage
        first_timestamp := first_timestamp
        last_timestamp := last_timestamp
        retention_time := retention_time
        chunk_count := chunk_count
        max_samples_per_chunk := max_samples_per_chunk
        chunk_size := chunk_size
        duplicate_policy := duplicate_policy
        labels := labels
        source_key := source_key
        rules := rules }
  | _ => .fail "no_ts_info_data"

/-! ### `TsValueReply` / `TsRange` (src/types.rs lines 833-855, 928-947)

The decoders are generic over the timestamp and value scalar types; they
are parameterized here by the two scalar decode functions the call site's
types supply. -/

structure TsValueReply (TS V : Type) where
  ts : TS
  value : V
  deriving DecidableEq

/-- `TsValueReply::from_redis_value`: a `Bulk` is destructured by indexing
`values[0]` / `values[1]` with `unwrap()`ed conversions; anything else is
the error `no_value_data`. -/
def TsValueReply.from_redis_value {TS V : Type} (decTS : Value → DecodeOutcome TS)
    (decV : Value → DecodeOutcome V) (v : Value) : DecodeOutcome (TsValueReply TS V) :=
  match v with
  | .Bulk values =>
    (vecIndex values 0).bind fun v0 =>
    (decTS v0).unwrapped.bind fun ts =>
    (vecIndex values 1).bind fun v1 =>
    (decV v1).unwrapped.map fun value => { ts := ts, value := value }
  | _ => .fail "no_value_data"

structure TsRange (TS V : Type) where
  values : List (TS × V)
  deriving DecidableEq

/-- `TsRange::from_redis_value`: element-wise decode of the bulk through
`TsValueReply`, error `no_range_data` on any other top-level shape. -/
def TsRange.from_redis_value {TS V : Type} (decTS : Value → DecodeOutcome TS)
    (decV : Value → DecodeOutcome V) (v : Value) : DecodeOutcome (TsRange TS V) :=
  match v with
  | .Bulk values =>
    (from_redis_values (TsValueReply.from_redis_value decTS decV) values).map fun items =>
      { values := items.map fun i => (i.ts, i.value) }
  | _ => .fail "no_range_data"

/-! ### `TsMget` / `TsMgetEntry` (src/types.rs lines 767-831) -/

structure TsMgetEntry (TS V : Type) where
  key : String
  labels : List (String × String)
  value : Option (TS × V)
  deriving DecidableEq

/-- `TsMgetEntry::from_redis_value`: `values[0]` is the key (`?`),
`values[1]` the permissive label list, `values[2]` the optional sample
(`unwrap()`ed conversions on a non-empty `Bulk`). -/
def TsMgetEntry.from_redis_value {TS V : Type} (decTS : Value → DecodeOutcome TS)
    (decV : Value → DecodeOutcome V) (v : Value) : DecodeOutcome (TsMgetEntry TS V) :=
  match v with
  | .Bulk values =>
    (vecIndex values 0).bind fun v0 =>
    (from_redis_value_string v0).bind fun key =>
    (vecIndex values 1).bind fun v1 =>
    (match v1 with
     | .Bulk vs => flatMapLabels vs
     | _ => .ok []).bind fun labels =>
    (vecIndex values 2).bind fun v2 =>
    (show DecodeOutcome (Option (TS × V)) from
      match v2 with
      | .Bulk vs =>
        if vs.isEmpty then .ok none
        else
          (vecIndex vs 0).bind fun w0 =>
          (decTS w0).unwrapped.bind fun ts =>
          (vecIndex vs 1).bind fun w1 =>
          (decV w1).unwrapped.map fun value => some (ts, value)
      | _ => .ok none).map fun value =>
      { key := key, labels := labels, value := value }
  | _ => .fail "no_mget_data"

structure TsMget (TS V : Type) where
  values : List (TsMgetEntry TS V)
  deriving DecidableEq

/-- `TsMget::from_redis_value` (src/types.rs lines 772-782): a `Bulk`
decodes element-wise; **any other top-level shape yields an empty result,
not an error**. -/
def TsMget.from_redis_value {TS V : Type} (decTS : Value → DecodeOutcome TS)
    (decV : Value → DecodeOutcome V) (v : Value) : DecodeOutcome (TsMget TS V) :=
  match v with
  | .Bulk values =>
    (from_redis_values (TsMgetEntry.from_redis_value decTS decV) values).map fun items =>
      { values := items }
  | _ => .ok { values := [] }

/-! ### `TsMrange` / `TsMrangeEntry` (src/types.rs lines 859-926) -/

structure TsMrangeEntry (TS V : Type) where
  key : String
  labels : List (String × String)
  values : List (TS × V)
  deriving DecidableEq

/-- `TsMrangeEntry::from_redis_value`: the key conversion is
`unwrap()`ed, labels are permissive, the sample list propagates element
errors with `?`. -/
def TsMrangeEntry.from_redis_value {TS V : Type} (decTS : Value → DecodeOutcome TS)
    (decV : Value → DecodeOutcome V) (v : Value) : DecodeOutcome (TsMrangeEntry TS V) :=
  match v with
  | .Bulk values =>
    (vecIndex values 0).bind fun v0 =>
    (from_redis_value_string v0).unwrapped.bind fun key =>
    (vecIndex values 1).bind fun v1 =>
    (match v1 with
     | .Bulk vs => flatMapLabels vs
     | _ => .ok []).bind fun labels =>
    (vecIndex values 2).bind fun v2 =>
    (show DecodeOutcome (List (TS × V)) from
      match v2 with
      | .Bulk vs =>
        (from_redis_values (TsValueReply.from_redis_value decTS decV) vs).map
          fun (items : List (TsValueReply TS V)) =>
            items.map fun (i : TsValueReply TS V) => (i.ts, i.value)
      | _ => .ok []).map fun vals =>
      { key := key, labels := labels, values := vals }
  | _ => .fail "no_mget_data"

structure TsMrange (TS V : Type) where
  values : List (TsMrangeEntry TS V)
  deriving DecidableEq

/-- `TsMrange::from_redis_value` (src/types.rs lines 864-876): like
`TsMget`, a non-`Bulk` top level yields an empty result. -/
def TsMrange.from_redis_value {TS V : Type} (decTS : Value → DecodeOutcome TS)
    (decV : Value → DecodeOutcome V) (v : Value) : DecodeOutcome (TsMrange TS V) :=
  match v with
  | .Bulk values =>
    (from_redis_values (TsMrangeEntry.from_redis_value decTS decV) values).map fun items =>
      { values := items }
  | _ => .ok { values := [] }

/-- `TsCommands::ts_get` (src/commands.rs lines 247-252): the query result
(server reply decoded as `Option<(TS, V)>`, or a transport/server error)
is resolved with `.or_else(|_| Ok(None))`.  The input is the underlying
query's outcome: `.fail` for a server/decode error, `.ok v` for a reply
tree `v`. -/
def ts_get {TS V : Type} (decTS : Value → DecodeOutcome TS) (decV : Value → DecodeOutcome V)
    (reply : DecodeOutcome Value) : DecodeOutcome (Option (TS × V)) :=
  match reply.bind (decodeOption (decodePair decTS decV)) with
  | .ok x => .ok x
  | .fail _ => .ok none
  | .panic m => .panic m

/-! ### Clause segments

Named segments of the encoders, used to state the ordering claims. -/

def fromClause (q : TsRangeQuery) : List String :=
  match q.start with
  | some f => f.write_redis_args
  | none => ["-"]

def toClause (q : TsRangeQuery) : List String :=
  match q.stop with
  | some t => t.write_redis_args
  | none => ["+"]

def latestClause (q : TsRangeQuery) : List String :=
  if q.latest then ["LATEST"] else []

def filterByTsClause (q : TsRangeQuery) : List String :=
  if q.filter_by_ts.isEmpty then []
  else "FILTER_BY_TS" :: (q.filter_by_ts.map Integer.write_redis_args).flatten

def filterByValueClause (q : TsRangeQuery) : List String :=
  match q.filter_by_value with
  | some (min, max) => ["FILTER_BY_VALUE", min, max]
  | none => []

def countClause (q : TsRangeQuery) : List String :=
  match q.count with
  | some count => ["COUNT", natDecimal count]
  | none => []

def alignClause (q : TsRangeQuery) : List String :=
  match q.align with
  | some align => align.write_redis_args
  | none => []

def bucketTimestampClause (q : TsRangeQuery) : List String :=
  match q.bucket_timestamp with
  | some b => b.write_redis_args
  | none => []

def emptyClause (q : TsRangeQuery) : List String :=
  if q.empty then ["EMPTY"] else []

def retentionClause (o : TsOptions) : List String :=
  match o.retention_time with
  | some rt => ["RETENTION", natDecimal rt]
  | none => []

def uncompressedClause (o : TsOptions) : List String :=
  if o.uncompressed then ["UNCOMPRESSED"] else []

def duplicatePolicyClause (o : TsOptions) : List String :=
  match o.duplicate_policy with
  | some policy => policy.write_redis_args
  | none => []

def chunkSizeClause (o : TsOptions) : List String :=
  match o.chunk_size with
  | some alloc => ["CHUNK_SIZE", natDecimal alloc]
  | none => []

def labelsClause (o : TsOptions) : List String :=
  match o.labels with
  | some l => "LABELS" :: l
  | none => []

/-- A token distinct from the three aggregation-only keywords. -/
def aggKeywordFree (s : String) : Prop :=
  s ≠ "ALIGN" ∧ s ≠ "BUCKETTIMESTAMP" ∧ s ≠ "EMPTY"

theorem natDecimal_aggKeywordFree (n : Nat) : aggKeywordFree (natDecimal n) :=
  ⟨natDecimal_ne n _ 'A' (by decide) (by decide),
   natDecimal_ne n _ 'B' (by decide) (by decide),
   natDecimal_ne n _ 'E' (by decide) (by decide)⟩

theorem intDecimal_aggKeywordFree (i : Int) : aggKeywordFree (intDecimal i) :=
  ⟨intDecimal_ne i _ 'A' (by decide) (by decide) (by decide),
   intDecimal_ne i _ 'B' (by decide) (by decide) (by decide),
   intDecimal_ne i _ 'E' (by decide) (by decide) (by decide)⟩

theorem integer_args_aggKeywordFree (i : Integer) :
    ∀ s ∈ i.write_redis_args, aggKeywordFree s := by
  cases i <;>
    (intro s hs
     simp only [Integer.write_redis_args, List.mem_singleton] at hs
     subst hs
     first
       | exact natDecimal_aggKeywordFree _
       | exact intDecimal_aggKeywordFree _)

/-- Every token an aggregation-free range query encodes is distinct from
`ALIGN`, `BUCKETTIMESTAMP` and `EMPTY`, provided the two value-filter
tokens (renderings of `f64` values) are. -/
theorem write_redis_args_no_agg_keywords (q : TsRangeQuery)
    (hagg : q.aggregation_type = none)
    (hfv : ∀ mn mx, q.filter_by_value = some (mn, mx) → aggKeywordFree mn ∧ aggKeywordFree mx) :
    ∀ s ∈ q.write_redis_args, aggKeywordFree s := by
  intro s hs
  unfold TsRangeQuery.write_redis_args at hs
  rw [hagg] at hs
  simp only [List.append_nil, List.mem_append] at hs
  rcases hs with ((((hs | hs) | hs) | hs) | hs) | hs
  · match hstart : q.start with
    | some f => rw [hstart] at hs; exact integer_args_aggKeywordFree f s hs
    | none => rw [hstart] at hs; simp only [List.mem_singleton] at hs; subst hs; exact ⟨by decide, by decide, by decide⟩
  · match hstop : q.stop with
    | some t => rw [hstop] at hs; exact integer_args_aggKeywordFree t s hs
    | none => rw [hstop] at hs; simp only [List.mem_singleton] at hs; subst hs; exact ⟨by decide, by decide, by decide⟩
  · rcases hl : q.latest with _ | _ <;> rw [hl] at hs
    · cases hs
    · simp only [if_true, List.mem_singleton] at hs; subst hs
      exact ⟨by decide, by decide, by decide⟩
  · by_cases he : q.filter_by_ts.isEmpty
    · rw [if_pos he] at hs; cases hs
    · rw [if_neg he] at hs
      rcases List.mem_cons.mp hs with h | h
      · subst h; exact ⟨by decide, by decide, by decide⟩
      · rcases List.mem_flatten.mp h with ⟨l, hl, hsl⟩
        rcases List.mem_map.mp hl with ⟨i, _, hi⟩
        subst hi
        exact integer_args_aggKeywordFree i s hsl
  · match hfvq : q.filter_by_value with
    | some (mn, mx) =>
      rw [hfvq] at hs
      rcases hfv mn mx hfvq with ⟨h1, h2⟩
      simp only [List.mem_cons, List.mem_singleton] at hs
      rcases hs with h | h | h
      · subst h; exact ⟨by decide, by decide, by decide⟩
      · subst h; exact h1
      · cases h with
        | inl h => subst h; exact h2
        | inr h => cases h
    | none => rw [hfvq] at hs; cases hs
  · match hc : q.count with
    | some c =>
      rw [hc] at hs
      rcases List.mem_cons.mp hs with h | h
      · subst h; exact ⟨by decide, by decide, by decide⟩
      · simp only [List.mem_singleton] at h; subst h
        exact natDecimal_aggKeywordFree c
    | none => rw [hc] at hs; cases hs

/-- C1 (confirmed).  A `TsRangeQuery` with an aggregation spec encodes its
tokens in exactly the order: from bound (`-` default), to bound (`+`
default), `LATEST` when the flag is set, `FILTER_BY_TS` with the
timestamps when non-empty, `FILTER_BY_VALUE min max` when set, `COUNT n`
when set, `ALIGN a` when set, `AGGREGATION kind bucket`, `BUCKETTIMESTAMP
b` when set, and `EMPTY` when the flag is set. -/
theorem c1_rangeQuery_clause_interleaving (q : TsRangeQuery) (agg : TsAggregationType)
    (h : q.aggregation_type = some agg) :
    q.write_redis_args =
      fromClause q ++ toClause q ++ latestClause q ++ filterByTsClause q
        ++ filterByValueClause q ++ countClause q ++ alignClause q
        ++ agg.write_redis_args ++ bucketTimestampClause q ++ emptyClause q := by
  unfold TsRangeQuery.write_redis_args
  rw [h]
  simp only [fromClause, toClause, latestClause, filterByTsClause, filterByValueClause,
    countClause, alignClause, bucketTimestampClause, emptyClause, List.append_assoc]

/-- A fully populated range query, used as the C1 witness input. -/
def c1Query : TsRangeQuery :=
  TsRangeQuery.fromTs {} (.U64 1234) |>.toTs (.U64 5678) |>.setLatest true
    |>.filterByTs [.U64 10] |>.filterByValue "1" "5" |>.setCount 7
    |>.setAlign .Start |>.aggregationType (.Avg 5000) |>.bucketTimestamp .High
    |>.setEmpty true

/-- C1 witness: the order theorem applied to a fully populated query. -/
theorem c1_witness :
    c1Query.aggregation_type = some (.Avg 5000)
    ∧ c1Query.write_redis_args =
      fromClause c1Query ++ toClause c1Query ++ latestClause c1Query
        ++ filterByTsClause c1Query ++ filterByValueClause c1Query ++ countClause c1Query
        ++ alignClause c1Query ++ (TsAggregationType.Avg 5000).write_redis_args
        ++ bucketTimestampClause c1Query ++ emptyClause c1Query :=
  ⟨rfl, c1_rangeQuery_clause_interleaving c1Query (.Avg 5000) rfl⟩

/-- C2 (confirmed).  With no aggregation spec, the encoded sequence of a
range query contains none of `ALIGN`, `BUCKETTIMESTAMP`, `EMPTY`, even
when alignment, bucket-timestamp mode and the empty flag were all set on
the builder.  The two value-filter tokens are renderings of `f64` values,
expressed by the hypothesis that they differ from the three keywords. -/
theorem c2_agg_clause_suppression (q : TsRangeQuery) (al : TsAlign) (b : TsBucketTimestamp)
    (hagg : q.aggregation_type = none)
    (hfv : ∀ mn mx, q.filter_by_value = some (mn, mx) → aggKeywordFree mn ∧ aggKeywordFree mx) :
    "ALIGN" ∉ (((q.setAlign al).bucketTimestamp b).setEmpty true).write_redis_args
    ∧ "BUCKETTIMESTAMP" ∉ (((q.setAlign al).bucketTimestamp b).setEmpty true).write_redis_args
    ∧ "EMPTY" ∉ (((q.setAlign al).bucketTimestamp b).setEmpty true).write_redis_args := by
  have hall : ∀ s ∈ (((q.setAlign al).bucketTimestamp b).setEmpty true).write_redis_args,
      aggKeywordFree s := by
    refine write_redis_args_no_agg_keywords _ ?_ ?_
    · exact hagg
    · exact hfv
  exact ⟨fun h => (hall _ h).1 rfl, fun h => (hall _ h).2.1 rfl, fun h => (hall _ h).2.2 rfl⟩

/-- C2 witness: applied to a query with every non-aggregation field set. -/
theorem c2_witness :
    "ALIGN" ∉ ((((TsRangeQuery.fromTs {} (.U64 1) |>.setLatest true |>.setCount 3).setAlign
        .End).bucketTimestamp .Mid).setEmpty true).write_redis_args
    ∧ "BUCKETTIMESTAMP" ∉ ((((TsRangeQuery.fromTs {} (.U64 1) |>.setLatest true
        |>.setCount 3).setAlign .End).bucketTimestamp .Mid).setEmpty true).write_redis_args
    ∧ "EMPTY" ∉ ((((TsRangeQuery.fromTs {} (.U64 1) |>.setLatest true
        |>.setCount 3).setAlign .End).bucketTimestamp .Mid).setEmpty true).write_redis_args :=
  c2_agg_clause_suppression _ .End .Mid rfl (fun _ _ h => nomatch h)

/-- C8 (confirmed).  `TsOptions` encodes its optional clauses in the fixed
order `RETENTION, UNCOMPRESSED, DUPLICATE_POLICY, CHUNK_SIZE, LABELS`
(label pairs flattened as alternating name/value tokens), and the spec's
concrete configuration encodes to exactly the expected token list. -/
theorem c8_tsoptions_encoding :
    (∀ o : TsOptions,
      o.write_redis_args =
        retentionClause o ++ uncompressedClause o ++ duplicatePolicyClause o
          ++ chunkSizeClause o ++ labelsClause o)
    ∧ (TsOptions.retentionTime {} 60000 |>.setUncompressed false
        |>.duplicatePolicy .Last |>.chunkSize 8192
        |>.setLabels [("component", "engine")]).write_redis_args =
      ["RETENTION", "60000", "DUPLICATE_POLICY", "LAST", "CHUNK_SIZE", "8192",
       "LABELS", "component", "engine"] := by
  constructor
  · intro o
    rfl
  · decide

/-- C9 (confirmed).  The filter built by
`default().equals("sensor","temperature").in_set("region",["us","eu"])`
encodes to `FILTER`, `sensor=temperature`, `region=(us,eu)` in that
order, with `WITHLABELS` immediately before `FILTER` exactly when
`with_labels(true)` was called. -/
theorem c9_filter_rendering (b : Bool) :
    ((TsFilterOptions.equals {} "sensor" "temperature").inSet "region"
        ["us", "eu"]).write_redis_args =
      ["FILTER", "sensor=temperature", "region=(us,eu)"]
    ∧ (((TsFilterOptions.equals {} "sensor" "temperature").inSet "region"
        ["us", "eu"]).withLabels b).write_redis_args =
      (if b then ["WITHLABELS"] else [])
        ++ ["FILTER", "sensor=temperature", "region=(us,eu)"] := by
  cases b <;> exact ⟨by decide, by decide⟩

/-- C10 (confirmed).  `ts_alter` resets the uncompressed flag before
encoding: the `TS.ALTER` argument sequence never contains `UNCOMPRESSED`
(assuming the key, the label tokens and an `Other` policy string are not
themselves that word), and every other clause is encoded exactly as for
the unmodified options. -/
theorem c10_ts_alter_uncompressed (key : String) (o : TsOptions)
    (hk : key ≠ "UNCOMPRESSED")
    (hl : "UNCOMPRESSED" ∉ o.labels.getD [])
    (hp : o.duplicate_policy ≠ some (.Other "UNCOMPRESSED")) :
    "UNCOMPRESSED" ∉ ts_alter_args key o
    ∧ ts_alter_args key o =
        ["TS.ALTER", key] ++ retentionClause o ++ duplicatePolicyClause o
          ++ chunkSizeClause o ++ labelsClause o := by
  have heq : ts_alter_args key o =
      ["TS.ALTER", key] ++ retentionClause o ++ duplicatePolicyClause o
        ++ chunkSizeClause o ++ labelsClause o := by
    unfold ts_alter_args TsOptions.setUncompressed TsOptions.write_redis_args
    simp only [retentionClause, duplicatePolicyClause, chunkSizeClause, labelsClause,
      if_false, Bool.false_eq_true, List.append_assoc, List.nil_append, List.cons_append,
      List.append_nil]
  have h1 : "UNCOMPRESSED" ∉ retentionClause o := by
    intro h
    unfold retentionClause at h
    rcases hrt : o.retention_time with _ | rt <;> rw [hrt] at h
    · cases h
    · rcases List.mem_cons.mp h with h | h
      · exact absurd h (by decide)
      · exact natDecimal_ne rt _ 'U' (by decide) (by decide) (List.mem_singleton.mp h).symm
  have h2 : "UNCOMPRESSED" ∉ duplicatePolicyClause o := by
    intro h
    unfold duplicatePolicyClause at h
    rcases hdp : o.duplicate_policy with _ | policy <;> rw [hdp] at h
    · cases h
    · cases policy <;>
        simp only [TsDuplicatePolicy.write_redis_args, List.mem_cons,
          List.mem_singleton, List.not_mem_nil] at h
      case Block => rcases h with h | h | h <;> simp_all
      case First => rcases h with h | h | h <;> simp_all
      case Last => rcases h with h | h | h <;> simp_all
      case Min => rcases h with h | h | h <;> simp_all
      case Max => rcases h with h | h | h <;> simp_all
      case Other v =>
        rcases h with h | h | h
        · exact absurd h (by decide)
        · exact hp (by rw [hdp, ← h])
        · cases h
  have h3 : "UNCOMPRESSED" ∉ chunkSizeClause o := by
    intro h
    unfold chunkSizeClause at h
    rcases hcs : o.chunk_size with _ | c <;> rw [hcs] at h
    · cases h
    · rcases List.mem_cons.mp h with h | h
      · exact absurd h (by decide)
      · exact natDecimal_ne c _ 'U' (by decide) (by decide) (List.mem_singleton.mp h).symm
  have h4 : "UNCOMPRESSED" ∉ labelsClause o := by
    intro h
    unfold labelsClause at h
    rcases hlb : o.labels with _ | l <;> rw [hlb] at h
    · cases h
    · rcases List.mem_cons.mp h with h | h
      · exact absurd h (by decide)
      · refine hl ?_
        rw [hlb]
        simpa using h
  refine ⟨?_, heq⟩
  rw [heq]
  intro hmem
  simp only [List.mem_append, List.mem_cons, List.mem_singleton, List.not_mem_nil] at hmem
  rcases hmem with (((h | h) | h) | h) | h
  · rcases h with h | h
    · exact absurd h (by decide)
    · rcases h with h | h
      · exact hk h.symm
      · cases h
  · exact h1 h
  · exact h2 h
  · exact h3 h
  · exact h4 h

/-- Options with every field set, `uncompressed(true)` included; the C10
witness input. -/
def c10Options : TsOptions :=
  TsOptions.retentionTime {} 60000 |>.setUncompressed true
    |>.duplicatePolicy .Last |>.chunkSize 8192 |>.label "component" "engine"

/-- C10 witness: applied to a key and options with every field set,
including `uncompressed(true)`. -/
theorem c10_witness :
    "UNCOMPRESSED" ∉ ts_alter_args "my_ts" c10Options
    ∧ ts_alter_args "my_ts" c10Options =
      ["TS.ALTER", "my_ts"] ++ retentionClause c10Options ++ duplicatePolicyClause c10Options
        ++ chunkSizeClause c10Options ++ labelsClause c10Options :=
  c10_ts_alter_uncompressed "my_ts" c10Options (by decide) (by decide) (by decide)

/-! ### Decoder helper lemmas -/

theorem isOk_exists {α : Type} {x : DecodeOutcome α} (h : x.isOk = true) :
    ∃ a, x = .ok a := by
  cases x with
  | ok a => exact ⟨a, rfl⟩
  | fail m => cases h
  | panic m => cases h

/-- Element-wise decoding of a list whose prefix decodes successfully
propagates the error of the first failing element. -/
theorem from_redis_values_append_fail {α : Type} (dec : Value → DecodeOutcome α)
    (pre post : List Value) (v : Value) (m : String)
    (hpre : ∀ p ∈ pre, (dec p).isOk = true) (hv : dec v = .fail m) :
    from_redis_values dec (pre ++ v :: post) = .fail m := by
  induction pre with
  | nil =>
    simp only [List.nil_append, from_redis_values, hv, DecodeOutcome.bind]
  | cons p pre ih =>
    rcases isOk_exists (hpre p (List.mem_cons_self p pre)) with ⟨a, ha⟩
    have htail : from_redis_values dec (pre.append (v :: post)) = .fail m :=
      ih fun p' hp' => hpre p' (List.mem_cons_of_mem p hp')
    simp only [List.cons_append, from_redis_values, ha, DecodeOutcome.bind, htail,
      DecodeOutcome.map]

/-- A successful element-wise decode yields exactly one output per input
element. -/
theorem from_redis_values_ok_length {α : Type} (dec : Value → DecodeOutcome α) :
    ∀ (vs : List Value) (items : List α),
      from_redis_values dec vs = .ok items → items.length = vs.length := by
  intro vs
  induction vs with
  | nil =>
    intro items h
    simp only [from_redis_values] at h
    cases h
    rfl
  | cons v rest ih =>
    intro items h
    simp only [from_redis_values] at h
    cases hv : dec v with
    | ok a =>
      rw [hv] at h
      simp only [DecodeOutcome.bind] at h
      cases hrest : from_redis_values dec rest with
      | ok tail =>
        rw [hrest] at h
        simp only [DecodeOutcome.map] at h
        cases h
        simp [ih tail hrest]
      | fail m => rw [hrest] at h; cases h
      | panic m => rw [hrest] at h; cases h
    | fail m => rw [hv] at h; cases h
    | panic m => rw [hv] at h; cases h

/-- A successful element-wise decode decodes position `i` of the input to
position `i` of the output. -/
theorem from_redis_values_ok_get {α : Type} (dec : Value → DecodeOutcome α) :
    ∀ (vs : List Value) (items : List α),
      from_redis_values dec vs = .ok items →
      ∀ (i : Nat) (v : Value), vs.get? i = some v →
        ∃ a, dec v = .ok a ∧ items.get? i = some a := by
  intro vs
  induction vs with
  | nil =>
    intro items _ i v hv
    cases hv
  | cons w rest ih =>
    intro items h i v hv
    simp only [from_redis_values] at h
    cases hw : dec w with
    | ok a =>
      rw [hw] at h
      simp only [DecodeOutcome.bind] at h
      cases hrest : from_redis_values dec rest with
      | ok tail =>
        rw [hrest] at h
        simp only [DecodeOutcome.map] at h
        cases h
        cases i with
        | zero =>
          cases hv
          exact ⟨a, hw, rfl⟩
        | succ i => exact ih tail hrest i v hv
      | fail m => rw [hrest] at h; cases h
      | panic m => rw [hrest] at h; cases h
    | fail m => rw [hw] at h; cases h
    | panic m => rw [hw] at h; cases h

/-! ### C3: ts_get leniency vs. the other decode paths -/

/-- C3 counterexample.  The claim says the multi-get decoder treats a
top-level shape mismatch as a hard decode failure; in fact
`TsMget::from_redis_value` of a non-sequence reply resolves to an `Ok`
result with an empty entry list. -/
theorem c3_counterexample :
    TsMget.from_redis_value from_redis_value_u64 from_redis_value_u64 (.Int 5)
      = .ok { values := [] } := by
  decide

/-- C3 as amended (corrected).  `ts_get` resolves any underlying error or
undecodable reply shape to `Ok(None)`; the single-range and info decoders
treat a top-level shape mismatch as a hard decode failure; but the
multi-get and multi-range decoders resolve a top-level shape mismatch to
an `Ok` empty result instead of an error. -/
theorem c3_decode_asymmetry :
    (∀ msg : String,
      ts_get from_redis_value_u64 from_redis_value_u64 (.fail msg) = .ok none)
    ∧ (∀ (v : Value) (msg : String),
        decodeOption (decodePair from_redis_value_u64 from_redis_value_u64) v = .fail msg →
        ts_get from_redis_value_u64 from_redis_value_u64 (.ok v) = .ok none)
    ∧ (∀ v : Value, v.isBulk = false →
        TsRange.from_redis_value from_redis_value_u64 from_redis_value_u64 v
            = .fail "no_range_data"
        ∧ TsInfo.from_redis_value v = .fail "no_ts_info_data"
        ∧ TsMget.from_redis_value from_redis_value_u64 from_redis_value_u64 v
            = .ok { values := [] }
        ∧ TsMrange.from_redis_value from_redis_value_u64 from_redis_value_u64 v
            = .ok { values := [] }) := by
  refine ⟨fun msg => rfl, fun v msg h => ?_, fun v hv => ?_⟩
  · unfold ts_get
    simp only [DecodeOutcome.bind, h]
  · cases v <;> first
      | exact ⟨rfl, rfl, rfl, rfl⟩
      | cases hv

/-- C3 witness: the amended theorem applied to concrete replies. -/
theorem c3_witness :
    ts_get from_redis_value_u64 from_redis_value_u64 (.ok (.Int 7)) = .ok none
    ∧ TsMget.from_redis_value from_redis_value_u64 from_redis_value_u64 (.Status "x")
        = .ok { values := [] } :=
  ⟨c3_decode_asymmetry.2.1 (.Int 7) "response type not pair compatible" (by decide),
   (c3_decode_asymmetry.2.2 (.Status "x") rfl).2.2.1⟩

/-! ### C5: duplicate-policy decode and encode -/

/-- C5 counterexample.  The claim says decoding matches the known policy
set case-insensitively; in fact the match is verbatim against the
lowercase names, so the uppercase spelling `"LAST"` of a known policy
decodes to `Other("LAST")`, not `Last`. -/
theorem c5_counterexample :
    TsDuplicatePolicy.from_redis_value (.Data "LAST") = .ok (.Other "LAST")
    ∧ TsDuplicatePolicy.Other "LAST" ≠ TsDuplicatePolicy.Last := by
  decide

/-- C5 as amended (corrected).  Decoding matches the known set
case-sensitively against the lowercase names `block/first/last/min/max`;
any other string — including other spellings of known names — yields
`Other(s)`, never a decode failure; `"xyz"` decodes to `Other("xyz")`,
`"last"` to `Last`; encoding the named policies emits the uppercase
tokens. -/
theorem c5_duplicate_policy_decode :
    (∀ s : String, s ≠ "block" → s ≠ "first" → s ≠ "last" → s ≠ "min" → s ≠ "max" →
      TsDuplicatePolicy.from_redis_value (.Data s) = .ok (.Other s))
    ∧ TsDuplicatePolicy.from_redis_value (.Data "xyz") = .ok (.Other "xyz")
    ∧ TsDuplicatePolicy.from_redis_value (.Data "last") = .ok .Last
    ∧ TsDuplicatePolicy.from_redis_value (.Data "block") = .ok .Block
    ∧ TsDuplicatePolicy.from_redis_value (.Data "first") = .ok .First
    ∧ TsDuplicatePolicy.from_redis_value (.Data "min") = .ok .Min
    ∧ TsDuplicatePolicy.from_redis_value (.Data "max") = .ok .Max
    ∧ TsDuplicatePolicy.write_redis_args .Block = ["DUPLICATE_POLICY", "BLOCK"]
    ∧ TsDuplicatePolicy.write_redis_args .First = ["DUPLICATE_POLICY", "FIRST"]
    ∧ TsDuplicatePolicy.write_redis_args .Last = ["DUPLICATE_POLICY", "LAST"]
    ∧ TsDuplicatePolicy.write_redis_args .Min = ["DUPLICATE_POLICY", "MIN"]
    ∧ TsDuplicatePolicy.write_redis_args .Max = ["DUPLICATE_POLICY", "MAX"] := by
  refine ⟨fun s h1 h2 h3 h4 h5 => ?_, by decide, by decide, by decide, by decide,
    by decide, by decide, by decide, by decide, by decide, by decide, by decide⟩
  unfold TsDuplicatePolicy.from_redis_value from_redis_value_string
  simp only [DecodeOutcome.bind, if_neg h1, if_neg h2, if_neg h3, if_neg h4, if_neg h5]

/-- C5 witness: the fallback branch applied to an unknown string. -/
theorem c5_witness :
    TsDuplicatePolicy.from_redis_value (.Data "Zzz") = .ok (.Other "Zzz") :=
  c5_duplicate_policy_decode.1 "Zzz" (by decide) (by decide) (by decide) (by decide)
    (by decide)

/-! ### C4: permissive sub-sequence decoding in `TsInfo` -/

theorem flatMapRules_skip (pre post : List Value) (v : Value) (hv : v.isBulk = false) :
    flatMapRules (pre ++ v :: post) = flatMapRules (pre ++ post) := by
  induction pre with
  | nil =>
    simp only [List.nil_append]
    cases v <;> first | rfl | cases hv
  | cons p pre ih =>
    simp only [List.cons_append]
    cases p <;> simp only [flatMapRules, ih]

theorem flatMapLabels_skip (pre post : List Value) (v : Value) (hv : v.isBulk = false) :
    flatMapLabels (pre ++ v :: post) = flatMapLabels (pre ++ post) := by
  induction pre with
  | nil =>
    simp only [List.nil_append]
    cases v <;> first | rfl | cases hv
  | cons p pre ih =>
    simp only [List.cons_append]
    cases p <;> simp only [flatMapLabels, ih]

/-- C4 counterexample.  The claim says a malformed element inside the
`rules` sub-sequence — here a sequence of the wrong arity — is skipped
and the decode never panics; in fact indexing `vs[0]` of the empty inner
sequence panics. -/
theorem c4_counterexample :
    TsInfo.from_redis_value (.Bulk [.Data "rules", .Bulk [.Bulk []]])
      = .panic "index out of bounds" := by
  decide

/-- C4 as amended (corrected).  Inside the `labels` and `rules`
sub-sequences only elements that are not themselves sequences are
skipped; a sequence element of the wrong arity or with members failing
scalar conversion makes the decode panic, so the decode is not total.
Non-sequence elements are dropped without affecting the rest, and a
well-formed reply with such elements decodes successfully. -/
theorem c4_permissive_subsequences :
    (∀ (pre post : List Value) (v : Value), v.isBulk = false →
      flatMapRules (pre ++ v :: post) = flatMapRules (pre ++ post)
      ∧ flatMapLabels (pre ++ v :: post) = flatMapLabels (pre ++ post))
    ∧ TsInfo.from_redis_value
        (.Bulk [.Data "rules", .Bulk [.Int 7, .Bulk [.Data "dst", .Int 5, .Data "avg"]],
                .Data "labels", .Bulk [.Int 9, .Bulk [.Data "a", .Data "b"]]])
      = .ok { rules := [("dst", 5, "avg")], labels := [("a", "b")] } := by
  refine ⟨fun pre post v hv => ⟨flatMapRules_skip pre post v hv, flatMapLabels_skip pre post v hv⟩, ?_⟩
  decide

/-- C4 witness: the skip property applied to a non-sequence element. -/
theorem c4_witness :
    flatMapRules ([] ++ .Int 3 :: [.Bulk [.Data "d", .Int 1, .Data "avg"]])
      = flatMapRules ([] ++ [.Bulk [.Data "d", .Int 1, .Data "avg"]])
    ∧ flatMapLabels ([] ++ .Int 3 :: [.Bulk [.Data "d", .Int 1, .Data "avg"]])
      = flatMapLabels ([] ++ [.Bulk [.Data "d", .Int 1, .Data "avg"]]) :=
  c4_permissive_subsequences.1 [] [.Bulk [.Data "d", .Int 1, .Data "avg"]] (.Int 3) rfl

/-! ### C6: all-or-nothing range decoding -/

/-- C6 counterexample.  The claim says a per-element wrong-arity failure
propagates as a decode error for the whole range result; in fact an
element that is an empty sequence panics (`values[0]` out of bounds)
instead of producing an error. -/
theorem c6_counterexample :
    TsRange.from_redis_value from_redis_value_u64 from_redis_value_u64 (.Bulk [.Bulk []])
      = .panic "index out of bounds" := by
  decide

/-- C6 as amended (corrected).  A non-sequence element propagates as a
decode error for the whole range result — no partial sample list is
returned — and a successful decode yields exactly one ordered sample per
input element; but an element that is a sequence of the wrong arity, or
whose members fail conversion, panics instead of producing the error. -/
theorem c6_range_all_or_nothing :
    (∀ (pre post : List Value) (v : Value),
      (∀ p ∈ pre,
        (TsValueReply.from_redis_value from_redis_value_u64 from_redis_value_u64 p).isOk = true) →
      v.isBulk = false →
      TsRange.from_redis_value from_redis_value_u64 from_redis_value_u64
          (.Bulk (pre ++ v :: post))
        = .fail "no_value_data")
    ∧ (∀ (vs : List Value) (r : TsRange Nat Nat),
        TsRange.from_redis_value from_redis_value_u64 from_redis_value_u64 (.Bulk vs) = .ok r →
        r.values.length = vs.length
        ∧ ∀ (i : Nat) (v : Value), vs.get? i = some v →
            ∃ item : TsValueReply Nat Nat,
              TsValueReply.from_redis_value from_redis_value_u64 from_redis_value_u64 v
                  = .ok item
              ∧ r.values.get? i = some (item.ts, item.value)) := by
  constructor
  · intro pre post v hpre hv
    have hv' : TsValueReply.from_redis_value from_redis_value_u64 from_redis_value_u64 v
        = .fail "no_value_data" := by
      cases v <;> first | rfl | cases hv
    have hall := from_redis_values_append_fail
      (TsValueReply.from_redis_value from_redis_value_u64 from_redis_value_u64)
      pre post v _ hpre hv'
    simp only [TsRange.from_redis_value, hall, DecodeOutcome.map]
  · intro vs r h
    simp only [TsRange.from_redis_value] at h
    cases hfv : from_redis_values
        (TsValueReply.from_redis_value from_redis_value_u64 from_redis_value_u64) vs with
    | ok items =>
      rw [hfv] at h
      simp only [DecodeOutcome.map] at h
      cases h
      constructor
      · simp [List.length_map,
          from_redis_values_ok_length
            (TsValueReply.from_redis_value from_redis_value_u64 from_redis_value_u64) vs items hfv]
      · intro i v hvi
        obtain ⟨item, hitem, hidx⟩ := from_redis_values_ok_get
          (TsValueReply.from_redis_value from_redis_value_u64 from_redis_value_u64)
          vs items hfv i v hvi
        refine ⟨item, hitem, ?_⟩
        rw [List.get?_map, hidx]
        rfl
    | fail m => rw [hfv] at h; cases h
    | panic m => rw [hfv] at h; cases h

/-- C6 witness: the error propagation and the completeness part applied
to concrete replies. -/
theorem c6_witness :
    TsRange.from_redis_value from_redis_value_u64 from_redis_value_u64
      (.Bulk ([.Bulk [.Int 1, .Int 2]] ++ .Nil :: [])) = .fail "no_value_data"
    ∧ (TsRange.mk [(1, 2)] : TsRange Nat Nat).values.length
        = [Value.Bulk [.Int 1, .Int 2]].length :=
  ⟨c6_range_all_or_nothing.1 [.Bulk [.Int 1, .Int 2]] [] .Nil (by decide) rfl,
   (c6_range_all_or_nothing.2 [.Bulk [.Int 1, .Int 2]] ⟨[(1, 2)]⟩ (by decide)).1⟩

/-! ### C7: permissive `TsInfo` field defaults -/

/-- C7 counterexample.  The claim says the `TsInfo` decode fails only
when the top-level reply is not sequence-shaped; this sequence-shaped
reply — only a `totalSamples` pair whose value is itself a sequence —
fails the scalar conversion and the whole decode errors. -/
theorem c7_counterexample :
    TsInfo.from_redis_value (.Bulk [.Data "totalSamples", .Bulk []])
      = .fail "response type not convertible to u64" := by
  decide

/-- C7 as amended (corrected).  A top-level sequence holding only the
`totalSamples` pair with an integer value decodes successfully to a
`TsInfo` with `total_samples` set and every other field at its
zero/empty/absent default, and a non-sequence top level always fails;
but a sequence-shaped reply can also fail, when a present field's value
does not convert. -/
theorem c7_tsinfo_defaults :
    (∀ n : Nat, n < 2 ^ 64 →
      TsInfo.from_redis_value (.Bulk [.Data "totalSamples", .Int (n : Int)])
        = .ok { total_samples := n })
    ∧ (∀ v : Value, v.isBulk = false →
        TsInfo.from_redis_value v = .fail "no_ts_info_data") := by
  constructor
  · intro n hn
    have hmod : ((n : Int) % 2 ^ 64).toNat = n := by
      have h2 : ((2 : Int) ^ 64) = 18446744073709551616 := by norm_num
      have hn' : n < 18446744073709551616 := by
        calc n < 2 ^ 64 := hn
          _ = 18446744073709551616 := by norm_num
      rw [h2]
      omega
    have key : TsInfo.from_redis_value (.Bulk [.Data "totalSamples", .Int (n : Int)])
        = .ok { total_samples := ((n : Int) % 2 ^ 64).toNat } := rfl
    rw [key, hmod]
  · intro v hv
    cases v <;> first | rfl | cases hv

/-- C7 witness: the defaults theorem applied to a concrete count and a
non-sequence reply. -/
theorem c7_witness :
    TsInfo.from_redis_value (.Bulk [.Data "totalSamples", .Int ((42 : Nat) : Int)])
      = .ok { total_samples := 42 }
    ∧ TsInfo.from_redis_value .Nil = .fail "no_ts_info_data" :=
  ⟨c7_tsinfo_defaults.1 42 (by norm_num), c7_tsinfo_defaults.2 .Nil rfl⟩

end RedisTs
